import Mathlib

/-!
Verification of the training-loop core of Unbabel/OpenNMT-py.

Shallow embedding of the code in `onmt/Trainer.py` and `onmt/Loss.py`:
the early-stopping patience state machine (`EarlyStopping`), the loss
statistics accumulators (`Statistics` in both files), the validation loop
(`Trainer.validate`), the trainer construction checks (`Trainer.__init__`),
the variable-sharding routine (`shardVariables` in `Loss.py`), and the
per-shard loss normalization of `MemoryEfficientLoss.loss`.

Python floats are modelled by `ℚ` (all scores and losses in the properties
under study are exact in both), `float("inf")` by `none : Option ℚ`,
Python ints by `Int`/`Nat`, raised exceptions by `Except`.
-/

namespace OpenNMT

/-! ## EarlyStopping (Trainer.py, lines 510-565) -/

/-- `EarlyStopping.PatienceEnum` from Trainer.py lines 522-525. -/
inductive PatienceEnum
  | IMPROVING
  | DECREASING
  | STOPPED
deriving DecidableEq, Repr

/-- State of the `EarlyStopping` callable (Trainer.py lines 527-535).
`best_score = none` models the initial `float("inf")`; a rational score is
always strictly below it.  The `trainer`, `epochs` and scorer attributes do
not participate in the transition logic and are omitted; the
`drop_best_earlystopping` checkpoint call in the improving branch is a side
effect on the trainer, not on this state. -/
structure EarlyStopping where
  tolerance : Int
  current_tolerance : Int
  best_score : Option ℚ
  status : PatienceEnum
deriving DecidableEq, Repr

/-- `EarlyStopping.__init__` (Trainer.py lines 527-535). -/
def EarlyStopping.init (tolerance : Int) : EarlyStopping :=
  { tolerance := tolerance
    current_tolerance := tolerance
    best_score := none
    status := PatienceEnum.IMPROVING }

/-- `score < self.best_score` where `best_score` may be `float("inf")`. -/
def scoreLtBest (score : ℚ) (best : Option ℚ) : Bool :=
  match best with
  | none => true
  | some b => decide (score < b)

/-- `score > self.best_score` where `best_score` may be `float("inf")`. -/
def scoreGtBest (score : ℚ) (best : Option ℚ) : Bool :=
  match best with
  | none => false
  | some b => decide (b < score)

/-- `EarlyStopping.__call__` (Trainer.py lines 537-559), with the scorer
applied to the validation statistics abstracted into the rational `score`.
If the score beats the best, the tolerance is reset, the best recorded and
the status set to IMPROVING; otherwise the tolerance is decremented exactly
when the score is strictly worse than the best, and the status is
recomputed as DECREASING when tolerance remains positive, else STOPPED. -/
def EarlyStopping.call (es : EarlyStopping) (score : ℚ) : EarlyStopping :=
  if scoreLtBest score es.best_score then
    { es with
        current_tolerance := es.tolerance
        best_score := some score
        status := PatienceEnum.IMPROVING }
  else
    let ct := if scoreGtBest score es.best_score then
                es.current_tolerance - 1
              else
                es.current_tolerance
    { es with
        current_tolerance := ct
        status := if 0 < ct then PatienceEnum.DECREASING else PatienceEnum.STOPPED }

/-- `EarlyStopping.is_improving` (Trainer.py lines 561-562). -/
def EarlyStopping.is_improving (es : EarlyStopping) : Bool :=
  decide (es.status = PatienceEnum.IMPROVING)

/-- `EarlyStopping.has_stopped` (Trainer.py lines 564-565). -/
def EarlyStopping.has_stopped (es : EarlyStopping) : Bool :=
  decide (es.status = PatienceEnum.STOPPED)

/-- The machine obtained from a fresh `EarlyStopping(tolerance, ...)` after
feeding the given validation scores to `__call__`, one per call. -/
def runScores (tolerance : Int) (scores : List ℚ) : EarlyStopping :=
  scores.foldl EarlyStopping.call (EarlyStopping.init tolerance)

/-- The sequence of `status` values observed after each successive call. -/
def statusTrace (tolerance : Int) (scores : List ℚ) : List PatienceEnum :=
  ((scores.scanl EarlyStopping.call (EarlyStopping.init tolerance)).drop 1).map
    (fun es => es.status)

/-- The sequence of `current_tolerance` values after each successive call. -/
def toleranceTrace (tolerance : Int) (scores : List ℚ) : List Int :=
  ((scores.scanl EarlyStopping.call (EarlyStopping.init tolerance)).drop 1).map
    (fun es => es.current_tolerance)

/-! ## Statistics (Trainer.py lines 24-56, Loss.py lines 56-81) -/

/-- `Statistics` from Trainer.py lines 24-44: the counters driving
`accuracy`/`xent`/`ppl`.  The wall-clock fields (`start_time`,
`n_src_words`, `n_mt_words`) play no part in the claims and are omitted.
Accumulated losses are modelled as rationals. -/
structure Statistics where
  loss : ℚ
  n_words : Nat
  n_correct : Nat
deriving DecidableEq, Repr

/-- `Statistics.update` (Trainer.py lines 41-44): field-wise addition. -/
def Statistics.update (s stat : Statistics) : Statistics :=
  { loss := s.loss + stat.loss
    n_words := s.n_words + stat.n_words
    n_correct := s.n_correct + stat.n_correct }

/-- `Statistics.ppl` (Trainer.py lines 52-53):
`math.exp(min(self.loss / self.n_words, 100))`. -/
noncomputable def Statistics.ppl (s : Statistics) : ℝ :=
  Real.exp (min ((s.loss : ℝ) / (s.n_words : ℝ)) 100)

/-- `Statistics` from Loss.py lines 56-72, which additionally tracks the
regularization term `reg`. -/
structure LossStatistics where
  loss : ℚ
  reg : ℚ
  n_words : Nat
  n_correct : Nat
deriving DecidableEq, Repr

/-- `Statistics.ppl` from Loss.py lines 77-78: the same clamped formula. -/
noncomputable def LossStatistics.ppl (s : LossStatistics) : ℝ :=
  Real.exp (min ((s.loss : ℝ) / (s.n_words : ℝ)) 100)

/-- Whether an `Except` value models a Python call that returned normally. -/
def isOkE {ε α : Type} : Except ε α → Bool
  | Except.ok _ => true
  | Except.error _ => false

/-! ## Trainer.validate (Trainer.py lines 205-249) -/

/-- The model's train/eval mode flag — the only model state the `validate`
contract is about. -/
structure Model where
  training : Bool
deriving DecidableEq, Repr

/-- `model.eval()` (Trainer.py line 212). -/
def Model.eval (_m : Model) : Model := { training := false }

/-- `model.train()` (Trainer.py line 247). -/
def Model.train (_m : Model) : Model := { training := true }

/-- The `for batch in valid_iter` body of `Trainer.validate` (lines
216-244).  The forward pass and `monolithic_compute_loss` are external
collaborators that may raise; they are modelled by `computeLoss`, a function
of the model's current training mode and the batch.  A raised exception
aborts the loop immediately and propagates. -/
def validateLoop (computeLoss : Bool → Nat → Except Unit Statistics)
    (training : Bool) : List Nat → Statistics → Except Unit Statistics
  | [], stats => Except.ok stats
  | b :: rest, stats =>
    match computeLoss training b with
    | Except.error e => Except.error e
    | Except.ok batch_stats =>
        validateLoop computeLoss training rest (stats.update batch_stats)

/-- `Trainer.validate` (Trainer.py lines 205-249): `self.model.eval()`, the
batch loop starting from a fresh `Statistics()`, then `self.model.train()`.
There is no try/finally around the loop, so when the loop raises, the
`train()` call on line 247 is never reached and the model keeps the mode it
had — evaluation mode.  Returns (result or propagated exception, the model
as left behind). -/
def Trainer.validate (m : Model)
    (computeLoss : Bool → Nat → Except Unit Statistics) (batches : List Nat) :
    Except Unit Statistics × Model :=
  let m1 := m.eval
  match validateLoop computeLoss m1.training batches ⟨0, 0, 0⟩ with
  | Except.error e => (Except.error e, m1)
  | Except.ok stats => (Except.ok stats, m1.train)

/-! ## Trainer construction (Trainer.py lines 115-139) -/

/-- The attributes `Trainer.__init__` stores, restricted to those involved
in its construction-time validation, plus the model whose mode it sets. -/
structure Trainer where
  model : Model
  trunc_size : Int
  shard_size : Int
  data_type : String
  norm_method : String
  grad_accum_count : Int
deriving DecidableEq, Repr

/-- `Trainer.__init__` (Trainer.py lines 115-139): stores the attributes,
asserts `grad_accum_count > 0`, then asserts `trunc_size == 0` whenever
`grad_accum_count > 1`, and only then calls `self.model.train()`.  A failed
assert raises, so the trainer is never constructed and no training
computation happens. -/
def Trainer.construct (model : Model) (trunc_size : Int) (shard_size : Int)
    (data_type : String) (norm_method : String) (grad_accum_count : Int) :
    Except String Trainer :=
  if grad_accum_count ≤ 0 then
    Except.error "AssertionError: grad_accum_count > 0"
  else if 1 < grad_accum_count ∧ trunc_size ≠ 0 then
    Except.error "AssertionError: To enable accumulated gradients, you must disable target sequence truncating."
  else
    Except.ok
      { model := model.train
        trunc_size := trunc_size
        shard_size := shard_size
        data_type := data_type
        norm_method := norm_method
        grad_accum_count := grad_accum_count }

/-! ## shardVariables (Loss.py lines 24-42)

Tensors are modelled as lists of rows along dimension 0 (the dimension
`torch.split` splits over); a variable set is an ordered association list
mirroring the insertion-ordered Python dict.  The `Variable(.., requires_grad,
volatile)` dummy wrapper built on lines 33-37 holds the same data as the
original tensor, so shard contents are unaffected by it; the gradient
bookkeeping (`dummies`, `collectGrads`) is outside the claims under study. -/

/-- Fuel-indexed model of `torch.split(tensor, batches)`: consecutive chunks
of `batches` rows, the last possibly narrower.  The fuel only drives
termination; `splitTensor` instantiates it with the tensor's length, which
suffices whenever `batches > 0`. -/
def splitTensorFuel (w : Nat) : Nat → List α → List (List α)
  | 0, _ => []
  | _ + 1, [] => []
  | fuel + 1, x :: xs =>
    if w = 0 then []
    else (x :: xs).take w :: splitTensorFuel w fuel ((x :: xs).drop w)

/-- `torch.split(tensor, batches)` along dimension 0. -/
def splitTensor (xs : List α) (w : Nat) : List (List α) :=
  splitTensorFuel w xs.length xs

/-- The loop `for i, v in enumerate(splits): shards[i][k] = v` (Loss.py
lines 40-41) for one variable: insert the i-th split into the i-th shard
dict.  Callers guard `splits.length ≤ shards.length`; with more splits than
shards the Python loop raises IndexError (modelled at the call site). -/
def assignSplits : List (List (String × List α)) → String → List (List α) →
    List (List (String × List α))
  | shards, _, [] => shards
  | [], _, _ :: _ => []
  | shard :: srest, k, split :: rest =>
      (shard ++ [(k, split)]) :: assignSplits srest k rest

/-- The `for k in variables` loop of `shardVariables` (Loss.py lines 32-41):
split each variable and write its splits into the shard dicts in order.  A
variable with more splits than there are shards makes `shards[i][k] = v`
raise IndexError. -/
def shardGo (batches : Nat) : List (String × List α) →
    List (List (String × List α)) → Except String (List (List (String × List α)))
  | [], shards => Except.ok shards
  | (k, v) :: rest, shards =>
    if (splitTensor v batches).length ≤ shards.length then
      shardGo batches rest (assignSplits shards k (splitTensor v batches))
    else Except.error "IndexError: list assignment index out of range"

/-- `n_shards = ((list(variables.values())[0].size(0) - 1) // batches) + 1`
(Loss.py line 30), with Python floor division on ints. -/
def nShards (v0 : List α) (batches : Nat) : Nat :=
  (((v0.length : Int) - 1).fdiv (batches : Int) + 1).toNat

/-- `shardVariables(variables, batches, eval)` (Loss.py lines 24-42),
restricted to the shard contents: the shard count is computed from the
first variable alone, `shards = [{} for _ in range(n_shards)]`, then every
variable's splits are assigned positionally.  An empty dict raises
IndexError at `list(variables.values())[0]`; `batches == 0` raises
ZeroDivisionError at the floor division. -/
def shardVariables (vars : List (String × List α)) (batches : Nat) :
    Except String (List (List (String × List α))) :=
  match vars with
  | [] => Except.error "IndexError: list index out of range"
  | (_, v0) :: _ =>
    if batches = 0 then
      Except.error "ZeroDivisionError: integer division or modulo by zero"
    else
      shardGo batches vars (List.replicate (nShards v0 batches) [])

/-! ## Per-shard loss normalization (Loss.py lines 159-231, Trainer.py
lines 172-177) -/

/-- A batch as seen by the normalization logic: its sentence count
(`batch.batch_size` in Trainer.py, `batch.batchSize` in Loss.py) and its
target-token matrix `tgt` (time-major: one row per target timestep). -/
structure Batch where
  batch_size : Nat
  tgt : List (List Int)
deriving DecidableEq, Repr

/-- The per-batch normalization constant accumulated by `Trainer.train`
(Trainer.py lines 172-177): the non-padding token count of `batch.tgt[1:]`
when `norm_method == "tokens"`, else `batch.batch_size`. -/
def numNonPadTokens (padding_idx : Int) (b : Batch) : Nat :=
  (((b.tgt.drop 1).flatten).filter (fun t => t != padding_idx)).length

/-- See `numNonPadTokens`: the value added to `normalization` for one batch. -/
def batchNormalization (norm_method : String) (padding_idx : Int) (b : Batch) :
    Nat :=
  if norm_method == "tokens" then numNonPadTokens padding_idx b
  else b.batch_size

/-- The backward calls issued by the shard loop of `MemoryEfficientLoss.loss`
(Loss.py lines 190-227): per shard, the externally computed scalar shard
loss `loss_t` is used as `loss_t.div(batch.batchSize).backward()` when not
in eval mode, and no backward call happens in eval mode.  The list returned
holds the scalar arguments passed to `backward`, in shard order. -/
def shardBackwardLosses (eval : Bool) (b : Batch) (shardLosses : List ℚ) :
    List ℚ :=
  if eval then []
  else shardLosses.map (fun loss_t => loss_t / (b.batch_size : ℚ))

/-! ## Lemmas about EarlyStopping -/

lemma call_stopped_tol (es : EarlyStopping) (s : ℚ)
    (h : (es.call s).status = PatienceEnum.STOPPED) :
    (es.call s).current_tolerance ≤ 0 := by
  unfold EarlyStopping.call at h ⊢
  cases hlt : scoreLtBest s es.best_score with
  | true => simp [hlt] at h
  | false =>
    simp only [hlt, Bool.false_eq_true, if_false] at h ⊢
    set ct := (if scoreGtBest s es.best_score then
        es.current_tolerance - 1 else es.current_tolerance) with hctdef
    split at h
    · exact absurd h (by decide)
    · next hc => omega

lemma call_tolerance_fixed (es : EarlyStopping) (s : ℚ) :
    (es.call s).tolerance = es.tolerance := by
  unfold EarlyStopping.call
  split <;> rfl

lemma runScores_append (tol : Int) (l : List ℚ) (a : ℚ) :
    runScores tol (l ++ [a]) = (runScores tol l).call a := by
  simp [runScores, List.foldl_append]

lemma runScores_stopped_tol (tol : Int) (scores : List ℚ)
    (h : (runScores tol scores).status = PatienceEnum.STOPPED) :
    (runScores tol scores).current_tolerance ≤ 0 := by
  induction scores using List.reverseRecOn with
  | nil => simp [runScores, EarlyStopping.init] at h
  | append_singleton l a _ih =>
    rw [runScores_append] at h ⊢
    exact call_stopped_tol _ _ h

lemma runScores_tolerance (tol : Int) (scores : List ℚ) :
    (runScores tol scores).tolerance = tol := by
  induction scores using List.reverseRecOn with
  | nil => rfl
  | append_singleton l a ih => rw [runScores_append, call_tolerance_fixed, ih]

lemma call_inv (es : EarlyStopping) (s : ℚ) (htol : 0 < es.tolerance) :
    ((es.call s).status = PatienceEnum.STOPPED ↔
      (es.call s).current_tolerance ≤ 0) := by
  unfold EarlyStopping.call
  cases hlt : scoreLtBest s es.best_score with
  | true =>
    simp [hlt]
    omega
  | false =>
    simp only [hlt, Bool.false_eq_true, if_false]
    set ct := (if scoreGtBest s es.best_score then
        es.current_tolerance - 1 else es.current_tolerance) with hctdef
    split
    · next hc =>
      simp
      omega
    · next hc =>
      simp
      omega

/-! ## Theorems for claims C1, C2, C3, C10 -/

/-- C1 (counterexample): with tolerance=1 the score sequence
[5.0, 4.0, 4.5, 4.5, 6.0] does NOT produce the status sequence IMPROVING,
IMPROVING, DECREASING, DECREASING, STOPPED claimed by the spec. -/
theorem C1_counterexample :
    ¬ (statusTrace 1 [5, 4, mkRat 9 2, mkRat 9 2, 6] =
      [PatienceEnum.IMPROVING, PatienceEnum.IMPROVING, PatienceEnum.DECREASING,
       PatienceEnum.DECREASING, PatienceEnum.STOPPED]) := by decide

/-- C1 (amended): with tolerance=1 the score sequence [5.0, 4.0, 4.5, 4.5, 6.0]
produces IMPROVING, IMPROVING, STOPPED, STOPPED, STOPPED: the third score is
strictly worse than the best (4.0), the tolerance drops from 1 to 0, and since
no tolerance remains the status is set to STOPPED immediately (not DECREASING);
the repeated 4.5 is again strictly worse than the best, so the tolerance keeps
decrementing (0, -1, -2). -/
theorem C1_amended_trace :
    statusTrace 1 [5, 4, mkRat 9 2, mkRat 9 2, 6] =
      [PatienceEnum.IMPROVING, PatienceEnum.IMPROVING, PatienceEnum.STOPPED,
       PatienceEnum.STOPPED, PatienceEnum.STOPPED]
    ∧ toleranceTrace 1 [5, 4, mkRat 9 2, mkRat 9 2, 6] = [1, 1, 0, -1, -2] := by
  decide

/-- C2 (counterexample): STOPPED is not terminal: after scores [5, 6] with
tolerance=1 the machine is STOPPED, yet the next call with the improving
score 4 moves the status back to IMPROVING. -/
theorem C2_counterexample :
    (runScores 1 [5, 6]).status = PatienceEnum.STOPPED ∧
      ((runScores 1 [5, 6]).call 4).status = PatienceEnum.IMPROVING := by decide

/-- C2 (amended): in any reachable STOPPED state, a call whose score does not
beat the best score leaves the status STOPPED; but a call whose score beats
the best score resets the status to IMPROVING, so STOPPED is not terminal. -/
theorem C2_stopped_amended (tol : Int) (scores : List ℚ) (score : ℚ)
    (h : (runScores tol scores).status = PatienceEnum.STOPPED) :
    (scoreLtBest score (runScores tol scores).best_score = false →
      ((runScores tol scores).call score).status = PatienceEnum.STOPPED)
    ∧ (scoreLtBest score (runScores tol scores).best_score = true →
      ((runScores tol scores).call score).status = PatienceEnum.IMPROVING) := by
  have htol := runScores_stopped_tol tol scores h
  constructor
  · intro hlt
    unfold EarlyStopping.call
    simp only [hlt, Bool.false_eq_true, if_false]
    have hct : ¬ 0 < (if scoreGtBest score (runScores tol scores).best_score then
        (runScores tol scores).current_tolerance - 1
        else (runScores tol scores).current_tolerance) := by
      split <;> omega
    simp [if_neg hct]
  · intro hlt
    simp [EarlyStopping.call, hlt]

/-- C2 witness: the amended theorem applied at tolerance 1, scores [5, 6]
and next score 7. -/
theorem C2_witness :
    (runScores 1 [5, 6]).status = PatienceEnum.STOPPED ∧
    ((scoreLtBest 7 (runScores 1 [5, 6]).best_score = false →
      ((runScores 1 [5, 6]).call 7).status = PatienceEnum.STOPPED)
    ∧ (scoreLtBest 7 (runScores 1 [5, 6]).best_score = true →
      ((runScores 1 [5, 6]).call 7).status = PatienceEnum.IMPROVING)) :=
  ⟨by decide, C2_stopped_amended 1 [5, 6] 7 (by decide)⟩

/-- C3 (counterexample): a machine in status IMPROVING with best score 5.0,
fed the score 5.0 (exactly equal to the best), keeps its tolerance but moves
to DECREASING, contradicting the claim that the status stays exactly what it
was. -/
theorem C3_counterexample :
    (((EarlyStopping.init 1).call 5).status = PatienceEnum.IMPROVING)
    ∧ (((EarlyStopping.init 1).call 5).best_score = some 5)
    ∧ ((((EarlyStopping.init 1).call 5).call 5).current_tolerance
        = ((EarlyStopping.init 1).call 5).current_tolerance)
    ∧ ((((EarlyStopping.init 1).call 5).call 5).status
        = PatienceEnum.DECREASING) := by decide

/-- C3 (amended): calling with a score exactly equal to the current best
leaves the remaining tolerance unchanged, but the status is recomputed from
that tolerance: DECREASING when tolerance remains positive, else STOPPED.
(So DECREASING and STOPPED states are preserved, but an IMPROVING machine
with positive tolerance moves to DECREASING.) -/
theorem C3_equal_score_amended (es : EarlyStopping) (score : ℚ)
    (h : es.best_score = some score) :
    (es.call score).current_tolerance = es.current_tolerance
    ∧ (es.call score).status =
        (if 0 < es.current_tolerance then PatienceEnum.DECREASING
         else PatienceEnum.STOPPED) := by
  have h1 : scoreLtBest score es.best_score = false := by simp [scoreLtBest, h]
  have h2 : scoreGtBest score es.best_score = false := by simp [scoreGtBest, h]
  unfold EarlyStopping.call
  simp [h1, h2]

/-- C3 witness: the amended theorem applied to the machine obtained from
tolerance 1 and one improving score 5, then fed 5 again. -/
theorem C3_witness :
    ((EarlyStopping.init 1).call 5).best_score = some 5
    ∧ ((((EarlyStopping.init 1).call 5).call 5).current_tolerance
        = ((EarlyStopping.init 1).call 5).current_tolerance
      ∧ (((EarlyStopping.init 1).call 5).call 5).status =
          (if 0 < ((EarlyStopping.init 1).call 5).current_tolerance then
            PatienceEnum.DECREASING else PatienceEnum.STOPPED)) :=
  ⟨by decide, C3_equal_score_amended _ 5 (by decide)⟩

/-- C10 (confirmed): for a machine built with positive configured tolerance,
in every reachable state the status is STOPPED exactly when the remaining
tolerance is ≤ 0; hence `is_improving` and `has_stopped` are never both
true.  (`scores = []` gives the state right after construction.) -/
theorem C10_invariant (tol : Int) (htol : 0 < tol) (scores : List ℚ) :
    ((runScores tol scores).status = PatienceEnum.STOPPED ↔
      (runScores tol scores).current_tolerance ≤ 0)
    ∧ ¬((runScores tol scores).is_improving = true ∧
        (runScores tol scores).has_stopped = true) := by
  constructor
  · induction scores using List.reverseRecOn with
    | nil =>
      simp [runScores, EarlyStopping.init]
      omega
    | append_singleton l a _ih =>
      rw [runScores_append]
      exact call_inv _ _ (by rw [runScores_tolerance]; exact htol)
  · rintro ⟨h1, h2⟩
    simp only [EarlyStopping.is_improving, EarlyStopping.has_stopped,
      decide_eq_true_eq] at h1 h2
    rw [h1] at h2
    exact PatienceEnum.noConfusion h2

/-- C10 witness: the invariant theorem applied at tolerance 1 and
scores [5, 6]. -/
theorem C10_witness :
    (0 : Int) < 1 ∧
    (((runScores 1 [5, 6]).status = PatienceEnum.STOPPED ↔
      (runScores 1 [5, 6]).current_tolerance ≤ 0)
    ∧ ¬((runScores 1 [5, 6]).is_improving = true ∧
        (runScores 1 [5, 6]).has_stopped = true)) :=
  ⟨by decide, C10_invariant 1 (by decide) [5, 6]⟩

/-! ## Theorems for claims C6, C8, C9 -/

/-- C6 (counterexample): when the loss computation raises on the very first
batch, `Trainer.validate` propagates the exception and the model is left in
evaluation mode (`training = false`), not restored to training mode. -/
theorem C6_counterexample :
    (Trainer.validate ⟨true⟩ (fun _ _ => Except.error ()) [0]).2.training = false
    ∧ (Trainer.validate ⟨true⟩ (fun _ _ => Except.error ()) [0]).1
        = Except.error () :=
  ⟨rfl, rfl⟩

/-- C6 (amended): `validate` runs the whole loss computation with the model
in evaluation mode (`training = false`) and returns exactly that
computation's outcome; the model's training mode is restored if and only if
every batch's loss computation returns normally — there is no try/finally,
so an exception partway through the batch loop leaves the model in
evaluation mode. -/
theorem C6_validate_amended (m : Model)
    (computeLoss : Bool → Nat → Except Unit Statistics) (batches : List Nat) :
    ((Trainer.validate m computeLoss batches).1 =
        validateLoop computeLoss false batches ⟨0, 0, 0⟩)
    ∧ ((Trainer.validate m computeLoss batches).2.training = true ↔
        isOkE (validateLoop computeLoss false batches ⟨0, 0, 0⟩) = true) := by
  unfold Trainer.validate Model.eval
  cases hres : validateLoop computeLoss false batches ⟨0, 0, 0⟩ with
  | error e => simp [hres, Model.train, isOkE]
  | ok stats => simp [hres, Model.train, isOkE]

/-- C8 (confirmed): constructing a Trainer with `grad_accum_count > 1` and a
nonzero `trunc_size` fails the construction-time assert; construction with
`grad_accum_count == 1` succeeds, as does `grad_accum_count > 1` with
`trunc_size == 0`. -/
theorem C8_construct (trunc_size grad_accum_count : Int) (m : Model) :
    (1 < grad_accum_count → trunc_size ≠ 0 →
      isOkE (Trainer.construct m trunc_size 32 "text" "sents"
        grad_accum_count) = false)
    ∧ isOkE (Trainer.construct m trunc_size 32 "text" "sents" 1) = true
    ∧ (1 < grad_accum_count →
      isOkE (Trainer.construct m 0 32 "text" "sents"
        grad_accum_count) = true) := by
  refine ⟨fun h1 h2 => ?_, ?_, fun h1 => ?_⟩
  · unfold Trainer.construct
    rw [if_neg (by omega), if_pos ⟨h1, h2⟩]
    rfl
  · unfold Trainer.construct
    rw [if_neg (by omega), if_neg (by omega)]
    rfl
  · unfold Trainer.construct
    rw [if_neg (by omega), if_neg (by simp)]
    rfl

/-- C8 witness: the construction theorem applied at trunc_size 5 and
grad_accum_count 2 (and the two succeeding variants). -/
theorem C8_witness :
    isOkE (Trainer.construct ⟨false⟩ 5 32 "text" "sents" 2) = false
    ∧ isOkE (Trainer.construct ⟨false⟩ 5 32 "text" "sents" 1) = true
    ∧ isOkE (Trainer.construct ⟨false⟩ 0 32 "text" "sents" 2) = true :=
  ⟨(C8_construct 5 2 ⟨false⟩).1 (by decide) (by decide),
   (C8_construct 5 1 ⟨false⟩).2.1,
   (C8_construct 0 2 ⟨false⟩).2.2 (by decide)⟩

/-- C9 (confirmed): for statistics with `n_words > 0`, `ppl()` — in both the
Trainer.py and the Loss.py accumulator — returns
`exp(min(loss / n_words, 100))`, and whenever `loss / n_words ≥ 100` it
returns `exp(100)` (the clamp prevents overflow: `exp` is never applied to
an exponent above 100). -/
theorem C9_ppl_clamp (s : Statistics) (t : LossStatistics)
    (_hs : 0 < s.n_words) (_ht : 0 < t.n_words) :
    s.ppl = Real.exp (min ((s.loss : ℝ) / (s.n_words : ℝ)) 100)
    ∧ (100 ≤ (s.loss : ℝ) / (s.n_words : ℝ) → s.ppl = Real.exp 100)
    ∧ t.ppl = Real.exp (min ((t.loss : ℝ) / (t.n_words : ℝ)) 100)
    ∧ (100 ≤ (t.loss : ℝ) / (t.n_words : ℝ) → t.ppl = Real.exp 100) := by
  refine ⟨rfl, fun h => ?_, rfl, fun h => ?_⟩
  · unfold Statistics.ppl
    rw [min_eq_right h]
  · unfold LossStatistics.ppl
    rw [min_eq_right h]

/-- C9 witness: the clamp theorem applied to statistics with loss 200 over
1 word (ratio 200 ≥ 100) and loss 300 over 2 words (ratio 150 ≥ 100). -/
theorem C9_witness :
    0 < (Statistics.mk 200 1 0).n_words
    ∧ 0 < (LossStatistics.mk 300 0 2 0).n_words
    ∧ (Statistics.mk 200 1 0).ppl = Real.exp 100
    ∧ (LossStatistics.mk 300 0 2 0).ppl = Real.exp 100 :=
  ⟨by decide, by decide,
   (C9_ppl_clamp (Statistics.mk 200 1 0) (LossStatistics.mk 300 0 2 0)
      (by decide) (by decide)).2.1 (by norm_num),
   (C9_ppl_clamp (Statistics.mk 200 1 0) (LossStatistics.mk 300 0 2 0)
      (by decide) (by decide)).2.2.2 (by norm_num)⟩

/-! ## Lemmas about shardVariables -/

lemma splitTensorFuel_congr {α : Type} (w : Nat) (hw : w ≠ 0) :
    ∀ (f1 f2 : Nat) (xs : List α), xs.length ≤ f1 → xs.length ≤ f2 →
      splitTensorFuel w f1 xs = splitTensorFuel w f2 xs := by
  intro f1
  induction f1 with
  | zero =>
    intro f2 xs h1 _h2
    have hxs : xs = [] := List.eq_nil_of_length_eq_zero (Nat.le_zero.mp h1)
    subst hxs
    cases f2 <;> rfl
  | succ f1 ih =>
    intro f2 xs h1 h2
    cases f2 with
    | zero =>
      have hxs : xs = [] := List.eq_nil_of_length_eq_zero (Nat.le_zero.mp h2)
      subst hxs
      rfl
    | succ f2 =>
      cases xs with
      | nil => rfl
      | cons x xs =>
        simp only [splitTensorFuel, hw, if_false]
        congr 1
        apply ih
        · simp only [List.length_drop, List.length_cons]
          simp only [List.length_cons] at h1
          omega
        · simp only [List.length_drop, List.length_cons]
          simp only [List.length_cons] at h2
          omega

lemma splitTensor_cons {α : Type} (w : Nat) (hw : w ≠ 0) (xs : List α)
    (hxs : xs ≠ []) :
    splitTensor xs w = xs.take w :: splitTensor (xs.drop w) w := by
  unfold splitTensor
  cases xs with
  | nil => exact absurd rfl hxs
  | cons x t =>
    simp only [List.length_cons, splitTensorFuel, hw, if_false]
    congr 1
    apply splitTensorFuel_congr w hw
    · simp only [List.length_drop, List.length_cons]
      omega
    · exact le_rfl

lemma splitTensor_join {α : Type} (w : Nat) (hw : 0 < w) (xs : List α) :
    (splitTensor xs w).flatten = xs := by
  have key : ∀ (n : Nat) (ys : List α), ys.length ≤ n →
      (splitTensor ys w).flatten = ys := by
    intro n
    induction n with
    | zero =>
      intro ys hy
      have : ys = [] := List.eq_nil_of_length_eq_zero (Nat.le_zero.mp hy)
      subst this
      rfl
    | succ n ih =>
      intro ys hy
      by_cases hys : ys = []
      · subst hys; rfl
      · rw [splitTensor_cons w (by omega) ys hys, List.flatten_cons,
          ih (ys.drop w) ?_, List.take_append_drop]
        have := List.length_pos.mpr hys
        simp only [List.length_drop]
        omega
  exact key xs.length xs le_rfl

lemma splitTensor_length {α : Type} (w : Nat) (hw : 0 < w) (xs : List α)
    (hxs : xs ≠ []) :
    (splitTensor xs w).length = (xs.length - 1) / w + 1 := by
  have key : ∀ (n : Nat) (ys : List α), ys ≠ [] → ys.length ≤ n →
      (splitTensor ys w).length = (ys.length - 1) / w + 1 := by
    intro n
    induction n with
    | zero =>
      intro ys hys hy
      exact absurd (List.eq_nil_of_length_eq_zero (Nat.le_zero.mp hy)) hys
    | succ n ih =>
      intro ys hys hy
      rw [splitTensor_cons w (by omega) ys hys]
      by_cases hd : ys.drop w = []
      · have hlen : ys.length ≤ w := by
          have h0 := congrArg List.length hd
          simp only [List.length_drop, List.length_nil] at h0
          have hpos := List.length_pos.mpr hys
          omega
        have hpos := List.length_pos.mpr hys
        rw [hd]
        simp only [List.length_cons]
        rw [Nat.div_eq_of_lt (by omega)]
        rfl
      · have hgt : w < ys.length := by
          have := List.length_pos.mpr hd
          simp only [List.length_drop] at this
          omega
        rw [List.length_cons, ih (ys.drop w) hd ?_]
        · simp only [List.length_drop]
          have heq : ys.length - w - 1 = ys.length - 1 - w := by omega
          rw [heq, ← Nat.div_eq_sub_div hw (by omega : w ≤ ys.length - 1)]
        · simp only [List.length_drop]
          omega
  exact key xs.length xs hxs le_rfl

lemma splitTensor_getElem_lt {α : Type} (w : Nat) (hw : 0 < w) :
    ∀ (n : Nat) (ys : List α), ys.length ≤ n → ∀ (i : Nat),
      i < (splitTensor ys w).length →
      (splitTensor ys w)[i]? = some ((ys.drop (i * w)).take w) := by
  intro n
  induction n with
  | zero =>
    intro ys hy i h
    have : ys = [] := List.eq_nil_of_length_eq_zero (Nat.le_zero.mp hy)
    subst this
    simp [splitTensor, splitTensorFuel] at h
  | succ n ih =>
    intro ys hy i h
    by_cases hys : ys = []
    · subst hys
      simp [splitTensor, splitTensorFuel] at h
    · rw [splitTensor_cons w (by omega) ys hys] at h ⊢
      cases i with
      | zero => simp
      | succ i =>
        rw [List.getElem?_cons_succ]
        rw [ih (ys.drop w) ?_ i ?_]
        · rw [List.drop_drop, Nat.succ_mul, Nat.add_comm (i * w) w]
        · have := List.length_pos.mpr hys
          simp only [List.length_drop]
          omega
        · simpa using h

lemma splitTensor_eq_range {α : Type} (w : Nat) (hw : 0 < w) (xs : List α)
    (m : Nat) (hm : (splitTensor xs w).length = m) :
    splitTensor xs w =
      (List.range m).map (fun i => (xs.drop (i * w)).take w) := by
  apply List.ext_getElem?
  intro i
  by_cases h : i < m
  · rw [splitTensor_getElem_lt w hw xs.length xs le_rfl i (by omega)]
    simp [List.getElem?_range h]
  · rw [List.getElem?_eq_none (by omega : (splitTensor xs w).length ≤ i)]
    rw [List.getElem?_eq_none (by simp; omega)]

lemma assignSplits_length {α : Type} :
    ∀ (shards : List (List (String × List α))) (k : String)
      (splits : List (List α)), splits.length ≤ shards.length →
      (assignSplits shards k splits).length = shards.length := by
  intro shards
  induction shards with
  | nil =>
    intro k splits h
    have : splits = [] := List.eq_nil_of_length_eq_zero (Nat.le_zero.mp h)
    subst this
    rfl
  | cons sh rest ih =>
    intro k splits h
    cases splits with
    | nil => rfl
    | cons sp srest =>
      simp only [assignSplits, List.length_cons]
      rw [ih k srest (by simpa using h)]

lemma assignSplits_zipWith {α : Type} :
    ∀ (shards : List (List (String × List α))) (k : String)
      (splits : List (List α)), splits.length = shards.length →
      assignSplits shards k splits =
        List.zipWith (fun sh sp => sh ++ [(k, sp)]) shards splits := by
  intro shards
  induction shards with
  | nil =>
    intro k splits h
    have : splits = [] := List.eq_nil_of_length_eq_zero h
    subst this
    rfl
  | cons sh rest ih =>
    intro k splits h
    cases splits with
    | nil => simp at h
    | cons sp srest =>
      simp only [assignSplits, List.zipWith_cons_cons]
      rw [ih k srest (by simpa using h)]

lemma shardGo_isOk {α : Type} (b : Nat) :
    ∀ (vars : List (String × List α)) (shards : List (List (String × List α))),
      isOkE (shardGo b vars shards) = true ↔
        ∀ kv ∈ vars, (splitTensor kv.2 b).length ≤ shards.length := by
  intro vars
  induction vars with
  | nil =>
    intro shards
    simp [shardGo, isOkE]
  | cons kv rest ih =>
    intro shards
    obtain ⟨k, v⟩ := kv
    by_cases hle : (splitTensor v b).length ≤ shards.length
    · rw [shardGo, if_pos hle, ih, assignSplits_length shards k _ hle]
      constructor
      · intro hall kv hkv
        rcases List.mem_cons.mp hkv with h1 | h1
        · rw [h1]
          exact hle
        · exact hall kv h1
      · intro hall kv hkv
        exact hall kv (List.mem_cons_of_mem _ hkv)
    · rw [shardGo, if_neg hle]
      simp only [isOkE, Bool.false_eq_true, false_iff, not_forall]
      exact ⟨(k, v), List.mem_cons_self _ _, hle⟩

lemma zipWith_append_nils {β : Type} :
    ∀ (l : List (List β)),
      List.zipWith (fun a b => a ++ b) l (List.replicate l.length ([] : List β)) = l := by
  intro l
  induction l with
  | nil => rfl
  | cons a t ih => simp only [List.length_cons, List.replicate_succ,
      List.zipWith_cons_cons, List.append_nil, ih]

lemma zipWith_zipWith_same {β γ δ ε' : Type} (f : γ → β → δ) (g : ε' → β → γ)
    (l : List ε') (r : List β) :
    List.zipWith f (List.zipWith g l r) r =
      List.zipWith (fun a b => f (g a b) b) l r := by
  induction l generalizing r with
  | nil => simp
  | cons a l ih => cases r <;> simp [ih]

lemma shardGo_full {α : Type} (w : Nat) (hw : 0 < w) :
    ∀ (vars : List (String × List α)) (shards : List (List (String × List α))),
      (∀ kv ∈ vars, (splitTensor kv.2 w).length = shards.length) →
      shardGo w vars shards = Except.ok
        (List.zipWith (fun sh row => sh ++ row) shards
          ((List.range shards.length).map
            (fun i => vars.map (fun kv => (kv.1, (kv.2.drop (i * w)).take w))))) := by
  intro vars
  induction vars with
  | nil =>
    intro shards _h
    have h1 : ((List.range shards.length).map
        (fun _ => ([] : List (String × List α)))) =
        List.replicate shards.length ([] : List (String × List α)) := by
      rw [List.map_const', List.length_range]
    simp only [shardGo, List.map_nil]
    rw [h1, zipWith_append_nils]
  | cons kv rest ih =>
    intro shards h
    obtain ⟨k, v⟩ := kv
    have hv : (splitTensor v w).length = shards.length :=
      h (k, v) (List.mem_cons_self _ _)
    rw [shardGo, if_pos (le_of_eq hv)]
    have hlen : (assignSplits shards k (splitTensor v w)).length = shards.length :=
      assignSplits_length shards k _ (le_of_eq hv)
    rw [ih (assignSplits shards k (splitTensor v w))
      (fun kv2 hkv2 => by rw [hlen]; exact h kv2 (List.mem_cons_of_mem _ hkv2))]
    congr 1
    rw [hlen]
    rw [assignSplits_zipWith shards k (splitTensor v w) hv]
    rw [splitTensor_eq_range w hw v shards.length hv]
    simp only [List.zipWith_map_right]
    rw [zipWith_zipWith_same]
    congr 1
    funext sh i
    simp [List.append_assoc]

lemma nShards_eq {α : Type} (v0 : List α) (w : Nat)
    (h : v0 ≠ []) : nShards v0 w = (v0.length - 1) / w + 1 := by
  unfold nShards
  have hpos := List.length_pos.mpr h
  have h1 : ((v0.length : Int) - 1) = ((v0.length - 1 : Nat) : Int) := by omega
  rw [h1, Int.fdiv_eq_tdiv (Int.natCast_nonneg _) (Int.natCast_nonneg _)]
  rw [show ((v0.length - 1 : Nat) : Int).tdiv (w : Int)
      = (((v0.length - 1) / w : Nat) : Int) from rfl]
  generalize (v0.length - 1) / w = q
  omega

lemma replicate_nil_zipWith_append {β : Type} :
    ∀ (l : List (List β)) (m : Nat), l.length = m →
      List.zipWith (fun a b => a ++ b) (List.replicate m ([] : List β)) l = l := by
  intro l
  induction l with
  | nil =>
    intro m hm
    rw [← hm]
    rfl
  | cons a t ih =>
    intro m hm
    cases m with
    | zero => simp at hm
    | succ m =>
      simp only [List.replicate_succ, List.zipWith_cons_cons, List.nil_append]
      rw [ih m (by simpa using hm)]


/-! ## Theorems for claims C4, C5, C7 -/

/-- C5 (counterexample): a variable set whose two tensors have different
batch-axis extents (6 and 4) is not rejected: `shardVariables` happily
returns three shards, the last of which is missing the shorter variable. -/
theorem C5_counterexample :
    (List.length [(0:Nat), 1, 2, 3, 4, 5] ≠ List.length [(0:Nat), 1, 2, 3])
    ∧ shardVariables
        [("out_t", [(0:Nat), 1, 2, 3, 4, 5]), ("targ_t", [0, 1, 2, 3])] 2
      = Except.ok [[("out_t", [0, 1]), ("targ_t", [0, 1])],
                   [("out_t", [2, 3]), ("targ_t", [2, 3])],
                   [("out_t", [4, 5])]] := by
  refine ⟨by decide, ?_⟩
  rfl

/-- C5 (amended): `shardVariables` performs no extent validation: the shard
count is computed from the first tensor alone, and the call succeeds if and
only if every tensor's split count fits into that many shards — a
longer-than-first tensor raises IndexError only once shard assignment
reaches it, and a shorter tensor silently yields trailing shards with no
entry for it (as `C5_counterexample` exhibits).  Mismatched extents are
never rejected up front. -/
theorem C5_no_extent_validation {α : Type} (k0 : String) (v0 : List α)
    (rest : List (String × List α)) (w : Nat) (hw : 0 < w) :
    isOkE (shardVariables ((k0, v0) :: rest) w) = true ↔
      ∀ kv ∈ (k0, v0) :: rest,
        (splitTensor kv.2 w).length ≤ nShards v0 w := by
  rw [show shardVariables ((k0, v0) :: rest) w =
      (if w = 0 then
        Except.error "ZeroDivisionError: integer division or modulo by zero"
      else shardGo w ((k0, v0) :: rest)
        (List.replicate (nShards v0 w) ([] : List (String × List α)))) from rfl]
  rw [if_neg (by omega : ¬ w = 0)]
  rw [shardGo_isOk w ((k0, v0) :: rest) (List.replicate (nShards v0 w) [])]
  rw [List.length_replicate]

/-- C5 witness: the amended characterization applied to extents 4 and 2
with shard width 2. -/
theorem C5_witness :
    (0 : Nat) < 2 ∧
    (isOkE (shardVariables
        [("out_t", [(0:Nat), 1, 2, 3]), ("targ_t", [0, 1])] 2) = true ↔
      ∀ kv ∈ [("out_t", [(0:Nat), 1, 2, 3]), ("targ_t", [0, 1])],
        (splitTensor kv.2 2).length ≤ nShards [(0:Nat), 1, 2, 3] 2) :=
  ⟨by decide,
   C5_no_extent_validation "out_t" [0, 1, 2, 3] [("targ_t", [0, 1])] 2
     (by decide)⟩

/-- C7 (confirmed): for a variable set whose tensors all share batch-axis
extent `n ≥ 1` and a shard width `w > 0`, `shardVariables` produces exactly
`(n - 1) / w + 1 = ceil(n / w) = (n + w - 1) / w` shards; shard `i` holds,
for every tensor in order, the contiguous batch-axis slice
`rows i*w, ..., i*w + w - 1` (the last shard possibly narrower), and
concatenating each tensor's shards in order reconstructs that tensor. -/
theorem C7_shard_partition {α : Type} (k0 : String) (v0 : List α)
    (rest : List (String × List α)) (n w : Nat) (hn : 1 ≤ n) (hw : 0 < w)
    (hall : ∀ kv ∈ (k0, v0) :: rest, kv.2.length = n) :
    shardVariables ((k0, v0) :: rest) w = Except.ok
      ((List.range ((n - 1) / w + 1)).map
        (fun i => ((k0, v0) :: rest).map
          (fun kv => (kv.1, (kv.2.drop (i * w)).take w))))
    ∧ (n - 1) / w + 1 = (n + w - 1) / w
    ∧ ∀ kv ∈ (k0, v0) :: rest,
        ((List.range ((n - 1) / w + 1)).map
          (fun i => (kv.2.drop (i * w)).take w)).flatten = kv.2 := by
  have hv0len : v0.length = n := hall (k0, v0) (List.mem_cons_self _ _)
  have hv0ne : v0 ≠ [] := by
    intro h0
    rw [h0] at hv0len
    simp at hv0len
    omega
  have hm : nShards v0 w = (n - 1) / w + 1 := by
    rw [nShards_eq v0 w hv0ne, hv0len]
  refine ⟨?_, ?_, ?_⟩
  · rw [show shardVariables ((k0, v0) :: rest) w =
        (if w = 0 then
          Except.error "ZeroDivisionError: integer division or modulo by zero"
        else shardGo w ((k0, v0) :: rest)
          (List.replicate (nShards v0 w) ([] : List (String × List α)))) from rfl]
    rw [if_neg (by omega : ¬ w = 0)]
    have hlens : ∀ kv ∈ (k0, v0) :: rest, (splitTensor kv.2 w).length =
        (List.replicate (nShards v0 w) ([] : List (String × List α))).length := by
      intro kv hkv
      have hkvlen := hall kv hkv
      have hkvne : kv.2 ≠ [] := by
        intro h0
        rw [h0] at hkvlen
        simp at hkvlen
        omega
      rw [List.length_replicate, hm, splitTensor_length w hw kv.2 hkvne, hkvlen]
    rw [shardGo_full w hw ((k0, v0) :: rest) _ hlens, List.length_replicate, hm]
    congr 1
    exact replicate_nil_zipWith_append _ _ (by simp)
  · have h2 : n + w - 1 = (n - 1) + w := by omega
    rw [h2, Nat.add_div_right _ hw]
  · intro kv hkv
    have hkvlen := hall kv hkv
    have hkvne : kv.2 ≠ [] := by
      intro h0
      rw [h0] at hkvlen
      simp at hkvlen
      omega
    have hlen : (splitTensor kv.2 w).length = (n - 1) / w + 1 := by
      rw [splitTensor_length w hw kv.2 hkvne, hkvlen]
    rw [← splitTensor_eq_range w hw kv.2 ((n - 1) / w + 1) hlen]
    exact splitTensor_join w hw kv.2

/-- C7 witness: the partition theorem applied to two tensors of extent 3
with shard width 2 (two shards of widths 2 and 1). -/
theorem C7_witness :
    (∀ kv ∈ [("out_t", [(10:Nat), 20, 30]), ("targ_t", [40, 50, 60])],
      kv.2.length = 3) ∧
    (shardVariables [("out_t", [(10:Nat), 20, 30]), ("targ_t", [40, 50, 60])] 2
        = Except.ok
        ((List.range ((3 - 1) / 2 + 1)).map
          (fun i => [("out_t", [(10:Nat), 20, 30]), ("targ_t", [40, 50, 60])].map
            (fun kv => (kv.1, (kv.2.drop (i * 2)).take 2))))
      ∧ (3 - 1) / 2 + 1 = (3 + 2 - 1) / 2
      ∧ ∀ kv ∈ [("out_t", [(10:Nat), 20, 30]), ("targ_t", [40, 50, 60])],
          ((List.range ((3 - 1) / 2 + 1)).map
            (fun i => (kv.2.drop (i * 2)).take 2)).flatten = kv.2) :=
  ⟨by decide,
   C7_shard_partition "out_t" [10, 20, 30] [("targ_t", [40, 50, 60])] 3 2
     (by decide) (by decide) (by decide)⟩

/-- C4 (counterexample): with token normalization, a batch with 2 sentences
and 3 non-padding target tokens has caller-side normalization constant 3,
yet the shard loop divides the shard loss 1 by `batch.batchSize = 2` before
`backward` — `loss_t.div(batch.batchSize)` on Loss.py line 227 — and
1/2 ≠ 1/3, so the shard loss is not divided by the caller-supplied
normalization constant. -/
theorem C4_counterexample :
    batchNormalization "tokens" 0 ⟨2, [[1, 1], [3, 4], [2, 0]]⟩ = 3
    ∧ shardBackwardLosses false ⟨2, [[1, 1], [3, 4], [2, 0]]⟩ [1]
        = [1 / (2 : ℚ)]
    ∧ (1 / (2 : ℚ)) ≠ 1 / 3 := by
  refine ⟨by decide, ?_, by norm_num⟩
  unfold shardBackwardLosses
  norm_num

/-- C4 (amended): when not in evaluation mode, each shard's loss is divided
by the batch's sentence count `batch.batchSize` before backward — the
normalization constant computed in `Trainer.train` is never passed to
`MemoryEfficientLoss.loss` and coincides with the divisor only under the
"sents" method (with a single-batch accumulation group); in evaluation mode
no backward call is made. -/
theorem C4_shard_normalization_amended (b : Batch) (padding_idx : Int)
    (shardLosses : List ℚ) :
    shardBackwardLosses false b shardLosses =
      shardLosses.map (fun loss_t => loss_t / (b.batch_size : ℚ))
    ∧ shardBackwardLosses true b shardLosses = []
    ∧ batchNormalization "sents" padding_idx b = b.batch_size := by
  refine ⟨rfl, rfl, ?_⟩
  unfold batchNormalization
  rw [if_neg (by decide)]


end OpenNMT
